import Mathlib

/-!
Verification of the storage-provider gateway layer of this repository.

The reference provider (the git-hosting backend client exercised by
`tests/providers/test_github.py`) is not shipped under `src/`, only its
tests are; its operations are therefore modelled from the spec (sections
4.2-4.5 and 8) and checked against the behaviour the tests pin down.
The view-layer helpers (`check_access`, `create_waterbutler_log`) and the
notification event registry (`website/notifications/events/model.py`) are
embedded directly from the source.
-/

namespace OsfGateway

/-- A JSON value, as used for the bodies of mutating requests.  Objects keep
their fields in insertion order, mirroring the Python dicts the tests
serialize with `json.dumps`. -/
inductive Json where
  | str (s : String)
  | num (n : Nat)
  | obj (fields : List (String × Json))

/-- Field lookup inside a JSON object; `none` when the value is not an object
or the key is absent.  "The body contains a field" means this returns
`some`. -/
def Json.lookupField (j : Json) (key : String) : Option Json :=
  match j with
  | .obj fields => fields.lookup key
  | _ => none

/-- Constructor-time auth data handed to the provider (the `auth` fixture:
display name and contact address). -/
structure Auth where
  name : String
  email : String
deriving DecidableEq

/-- Provider-specific connection parameters (the `identity` fixture). -/
structure Identity where
  owner : String
  repo : String
  token : String
deriving DecidableEq

/-- The committer identity attached to every mutating request body. -/
structure Committer where
  name : String
  email : String
deriving DecidableEq

/-- The JSON fragment for a committer inside a mutation body. -/
def committerJson (c : Committer) : Json :=
  .obj [("name", .str c.name), ("email", .str c.email)]

/-- A provider instance: constructor-time auth plus identity, held for the
instance's lifetime. -/
structure Provider where
  auth : Auth
  identity : Identity

/-- Modelled from the spec: `committer() -> CommitterAuth` is a pure function
of constructor-time auth data, `{name: auth.name, email: auth.email}` (the
`GithubProvider.committer` property, absent from `src/`). -/
def Provider.committer (p : Provider) : Committer :=
  { name := p.auth.name, email := p.auth.email }

/-- Modelled from the spec: `buildUrl(...segments)` joins a fixed backend
root with the segments (the `GithubProvider.build_url` helper, absent from
`src/`). -/
def build_url (segments : List String) : String :=
  String.intercalate "/" ("https://api.github.com" :: segments)

/-- Modelled from the spec: the repo-scoped URL helper prefixes
`repos/<owner>/<repo>` (the `GithubProvider.build_repo_url` helper, absent
from `src/`). -/
def build_repo_url (identity : Identity) (segments : List String) : String :=
  build_url (["repos", identity.owner, identity.repo] ++ segments)

/-- Modelled from the spec: the directory component of a target path, as
`os.path.dirname` computes it (everything before the final slash, trailing
slashes stripped unless the prefix is all slashes). -/
def dirname (p : String) : String :=
  let pre := (p.data.reverse.dropWhile (fun c => c ≠ '/')).reverse
  if pre.all (fun c => c = '/') then ⟨pre⟩
  else ⟨(pre.reverse.dropWhile (fun c => c = '/')).reverse⟩

/-- One entry of a backend contents listing, with the fields the gateway
reads (the `repo_contents` fixture carries exactly these plus link fields). -/
structure ContentsEntry where
  type : String
  size : Nat
  name : String
  path : String
  sha : String
deriving DecidableEq

/-- The kind of a normalized metadata record. -/
inductive Kind where
  | file
  | folder
deriving DecidableEq

/-- Normalized description of a remote file/folder entry (spec section 3). -/
structure MetadataRecord where
  kind : Kind
  name : String
  path : String
  size : Nat
  contentHash : String
deriving DecidableEq

/-- Modelled from the spec: `_serialize_metadata`, the pure function from a
backend response fragment to the normalized record (absent from `src/`);
type "file" maps to kind file, anything else to folder, and name, path,
size and sha carry over unchanged. -/
def serialize_metadata (e : ContentsEntry) : MetadataRecord :=
  { kind := if e.type = "file" then Kind.file else Kind.folder,
    name := e.name, path := e.path, size := e.size, contentHash := e.sha }

/-- Gateway-level error kinds (spec section 4.4); every kind carries the
original backend status for diagnostics (spec section 7). -/
inductive GatewayError where
  | notFound (status : Nat)
  | conflict (status : Nat)
  | unauthorized (status : Nat)
  | forbidden (status : Nat)
  | backendError (status : Nat)
deriving DecidableEq

/-- The backend status a gateway error carries. -/
def GatewayError.status : GatewayError → Nat
  | notFound s => s
  | conflict s => s
  | unauthorized s => s
  | forbidden s => s
  | backendError s => s

/-- Whether an HTTP status is a success (2xx). -/
def successStatus (s : Nat) : Bool := 200 ≤ s && s < 300

/-- Modelled from the spec: the ErrorTaxonomy mapping from a non-success
backend status to a gateway error kind (absent from `src/`): 404-class to
NotFound, 409 to Conflict, 401/403 to Unauthorized/Forbidden, anything else
to BackendError carrying the raw status. -/
def classify (s : Nat) : GatewayError :=
  if s = 404 then .notFound s
  else if s = 409 then .conflict s
  else if s = 401 then .unauthorized s
  else if s = 403 then .forbidden s
  else .backendError s

/-- A one-shot byte stream handle over the bytes the backend returned. -/
structure ByteStream where
  content : List Nat
deriving DecidableEq

/-- Modelled from the spec: `download` returns a ByteStream over the response
body on a success status and fails with the classified error, preserving the
status, on any non-success response (the `GithubProvider.download` method,
absent from `src/`; its test accepts any gateway error on status 418). -/
def download (status : Nat) (body : List Nat) : Except GatewayError ByteStream :=
  if successStatus status then .ok ⟨body⟩ else .error (classify status)

/-- Modelled from the spec: `metadata` parses a success response's listing
into normalized records in listing order and classifies any non-success
status (the `GithubProvider.metadata` method, absent from `src/`). -/
def metadata (status : Nat) (listing : List ContentsEntry) :
    Except GatewayError (List MetadataRecord) :=
  if successStatus status then .ok (listing.map serialize_metadata)
  else .error (classify status)

/-- The standard base64 alphabet. -/
def base64Alphabet : List Char :=
  "ABCDEFGHIJKLMNOPQRSTUVWXYZabcdefghijklmnopqrstuvwxyz0123456789+/".data

/-- The base64 digit for a 6-bit value. -/
def b64Char (n : Nat) : Char := base64Alphabet.getD n '='

/-- Standard base64 encoding of a byte list, three bytes to four digits with
`=` padding. -/
def b64Encode : List Nat → List Char
  | [] => []
  | [a] =>
    [b64Char (a / 4 % 64), b64Char (a % 4 * 16), '=', '=']
  | [a, b] =>
    [b64Char (a / 4 % 64), b64Char (a % 4 * 16 + b / 16 % 16),
     b64Char (b % 16 * 4), '=']
  | a :: b :: c :: rest =>
    b64Char (a / 4 % 64) :: b64Char (a % 4 * 16 + b / 16 % 16) ::
    b64Char (b % 16 * 4 + c / 64 % 4) :: b64Char (c % 64) :: b64Encode rest

/-- Base64 encoding as a string, as `base64.b64encode(...).decode('utf-8')`
produces it. -/
def base64Encode (bytes : List Nat) : String := ⟨b64Encode bytes⟩

/-- The outcome of the pre-flight metadata probe on the containing folder:
either the folder's listing, or a not-found result (which means "does not
yet exist", not a fatal error). -/
inductive ProbeResult where
  | listing (entries : List ContentsEntry)
  | notFound

/-- The entries the probe returned; a not-found probe yields no entries. -/
def probeEntries : ProbeResult → List ContentsEntry
  | .listing es => es
  | .notFound => []

/-- Modelled from the spec: step 3 of the upload algorithm scans the probed
listing for an entry matching the exact target path and captures its content
hash if present (absent from `src/`). -/
def findExistingSha (entries : List ContentsEntry) (path : String) : Option String :=
  (entries.find? (fun e => e.path == path)).map (fun e => e.sha)

/-- An outbound HTTP request the provider issues, with its URL and, for
mutations, its JSON body. -/
inductive Request where
  | get (url : String)
  | put (url : String) (body : Json)
  | del (url : String) (body : Json)

/-- Modelled from the spec: step 4 of the upload algorithm builds the write
body — path, message, the base64 encoding of the whole materialized stream
content, the committer, and the captured hash only when the probe found an
entry (absent from `src/`; field order matches the test's expected dict). -/
def uploadBody (p : Provider) (content : List Nat) (path message : String)
    (sha : Option String) : Json :=
  .obj ([("path", .str path), ("message", .str message),
         ("content", .str (base64Encode content)),
         ("committer", committerJson p.committer)] ++
        (match sha with
         | some h => [("sha", .str h)]
         | none => []))

/-- The body of the single write call `upload` issues, given the probe's
outcome. -/
def uploadWriteBody (p : Provider) (probe : ProbeResult) (content : List Nat)
    (path message : String) : Json :=
  uploadBody p content path message (findExistingSha (probeEntries probe) path)

/-- Modelled from the spec: the upload algorithm (section 4.3) issues a
read-only metadata GET on the containing folder and then exactly one write
call on the target path, whatever the probe returned (absent from `src/`). -/
def upload (p : Provider) (probe : ProbeResult) (content : List Nat)
    (path message : String) : List Request :=
  [ .get (build_repo_url p.identity ["contents", dirname path]),
    .put (build_repo_url p.identity ["contents", path])
         (uploadWriteBody p probe content path message) ]

/-- Modelled from the spec: the delete body carries message, the required
content hash, the committer, and the branch field only when a branch was
supplied — no default is injected (absent from `src/`; field order matches
the test's expected dict). -/
def deleteBody (p : Provider) (message sha : String) (branch : Option String) : Json :=
  .obj ([("message", .str message), ("sha", .str sha),
         ("committer", committerJson p.committer)] ++
        (match branch with
         | some b => [("branch", .str b)]
         | none => []))

/-- Modelled from the spec: `delete(path, message, contentHash, branch?)`
issues one DELETE on the target path with the delete body (absent from
`src/`). -/
def delete (p : Provider) (path message sha : String) (branch : Option String) :
    List Request :=
  [ .del (build_repo_url p.identity ["contents", path])
         (deleteBody p message sha branch) ]

/-! Path normalization at the gateway boundary, embedded from
`website/addons/base/views.py` (`create_waterbutler_log` applies
`.lstrip('/')` to paths) and `website/notifications/events/model.py`
(`FileEvent.form_guid` re-prefixes a slash). -/

/-- Python's `s.lstrip('/')`: drop every leading slash. -/
def lstripSlash (s : String) : String :=
  ⟨s.data.dropWhile (fun c => c = '/')⟩

/-- Python's `s.startswith('/')`. -/
def hasLeadingSlash (s : String) : Bool :=
  s.data.head? == some '/'

/-- `FileEvent.form_guid` (model.py line 109):
`path = path if path.startswith('/') else '/' + path`. -/
def form_guid_path (path : String) : String :=
  if hasLeadingSlash path then path else "/" ++ path

/-! Access control, embedded from `check_access` and `permission_map` in
`website/addons/base/views.py`.  Users are identified by an optional id
(`none` is an anonymous request); a node's permission oracle, publicity,
active private-link keys, registration flag and parent chain are the data
`check_access` consults. -/

/-- The action-to-permission map (views.py lines 73-86). -/
def permission_map : List (String × String) :=
  [("create_folder", "write"),
   ("revisions", "read"),
   ("metadata", "read"),
   ("download", "read"),
   ("upload", "write"),
   ("delete", "write"),
   ("copy", "write"),
   ("move", "write"),
   ("copyto", "write"),
   ("moveto", "write"),
   ("copyfrom", "read"),
   ("movefrom", "write")]

/-- The slice of a project node `check_access` reads: its permission oracle,
publicity, active private-link keys, registration flag, and parent chain. -/
inductive AccessNode where
  | mk (hasPermission : Option String → String → Bool)
       (isPublic : Bool)
       (privateLinkKeysActive : List String)
       (isRegistration : Bool)
       (parentNode : Option AccessNode)

/-- `node.has_permission(user, permission)`. -/
def AccessNode.hasPermission : AccessNode → Option String → String → Bool
  | .mk f _ _ _ _ => f

/-- `node.is_public`. -/
def AccessNode.isPublic : AccessNode → Bool
  | .mk _ b _ _ _ => b

/-- `node.private_link_keys_active`. -/
def AccessNode.privateLinkKeysActive : AccessNode → List String
  | .mk _ _ ks _ _ => ks

/-- `node.is_registration`. -/
def AccessNode.isRegistration : AccessNode → Bool
  | .mk _ _ _ r _ => r

/-- `node.parent_node` (`none` at the root). -/
def AccessNode.parentNode : AccessNode → Option AccessNode
  | .mk _ _ _ _ p => p

/-- Python's `key in node.private_link_keys_active` where `key` may be
`None` (never a member of a list of strings). -/
def keyInActive (node : AccessNode) (key : Option String) : Bool :=
  match key with
  | some k => decide (k ∈ node.privateLinkKeysActive)
  | none => false

/-- Whether this node or any of its ancestors grants `write` to the user;
the body of the `while parent:` walk in `check_access`. -/
def AccessNode.selfOrAncestorWrite : AccessNode → Option String → Bool
  | .mk hp _ _ _ parent, user =>
    hp user "write" ||
      (match parent with
       | none => false
       | some q => q.selfOrAncestorWrite user)

/-- The `while parent:` loop of `check_access` (views.py lines 111-116),
started at the node's parent. -/
def parentChainWrite (node : AccessNode) (user : Option String) : Bool :=
  match node.parentNode with
  | none => false
  | some p => p.selfOrAncestorWrite user

/-- `check_access` (views.py lines 89-119): `.ok true` when the action may
proceed, `.error code` for the HTTP error it raises. -/
def check_access (node : AccessNode) (user : Option String) (action : String)
    (key : Option String) : Except Nat Bool :=
  match permission_map.lookup action with
  | none => .error 400
  | some permission =>
    if node.hasPermission user permission then .ok true
    else if permission == "read" && (node.isPublic || keyInActive node key) then .ok true
    else if (action == "copyfrom" || (action == "copyto" && node.isRegistration))
              && parentChainWrite node user then .ok true
    else .error (if user.isSome then 403 else 401)

/-! The move/copy email branch of `create_waterbutler_log`
(`website/addons/base/views.py` lines 275-287), embedded as the function
from the payload to the `mails.send_mail` call it makes, if any. -/

/-- The source or destination bundle of a move/copy payload (the four keys
`create_waterbutler_log` requires, plus `path` which it reads). -/
structure WaterbutlerBundle where
  provider : String
  materialized : String
  name : String
  nid : String
  path : String
deriving DecidableEq

/-- A move/copy payload as `create_waterbutler_log` consumes it. -/
structure MoveCopyPayload where
  action : String
  source : WaterbutlerBundle
  destination : WaterbutlerBundle
  email : Bool
  errors : List String
deriving DecidableEq

/-- The arguments of the `mails.send_mail` call. -/
structure EmailCall where
  template : String
  action : String
  source_path : String
  destination_path : String
deriving DecidableEq

/-- The email branch (views.py lines 275-287): mail is sent when the email
flag is true or errors are present, with the failed template iff errors are
present, and with `destination_path=payload['source']['path']` (line 284) —
the source path, not the destination bundle's path. -/
def waterbutler_email (payload : MoveCopyPayload) : Option EmailCall :=
  if payload.email || !payload.errors.isEmpty then
    some { template := if payload.errors.isEmpty then "FILE_OPERATION_SUCCESS"
                       else "FILE_OPERATION_FAILED",
           action := payload.action,
           source_path := payload.source.path,
           destination_path := payload.source.path }
  else none

/-! The notification event registry, embedded from
`website/notifications/events/model.py`: `EventMeta` registers every
subclass of `Event` under its lowercased class name, and `Event.get_event`
looks an event name up after removing its underscores. -/

/-- The subclasses of `Event` defined in model.py, in definition order (the
order `EventMeta` registers them); `Event` itself only creates the registry
and is not registered. -/
inductive EventClass where
  | fileEvent
  | updateFileEvent
  | fileAdded
  | fileUpdated
  | simpleFileEvent
  | fileRemoved
  | folderCreated
  | complexFileEvent
  | addonFileMoved
  | addonFileCopied
deriving DecidableEq

/-- The Python class name of each registered subclass. -/
def EventClass.className : EventClass → String
  | .fileEvent => "FileEvent"
  | .updateFileEvent => "UpdateFileEvent"
  | .fileAdded => "FileAdded"
  | .fileUpdated => "FileUpdated"
  | .simpleFileEvent => "SimpleFileEvent"
  | .fileRemoved => "FileRemoved"
  | .folderCreated => "FolderCreated"
  | .complexFileEvent => "ComplexFileEvent"
  | .addonFileMoved => "AddonFileMoved"
  | .addonFileCopied => "AddonFileCopied"

/-- The registered subclasses in definition order. -/
def eventSubclasses : List EventClass :=
  [.fileEvent, .updateFileEvent, .fileAdded, .fileUpdated, .simpleFileEvent,
   .fileRemoved, .folderCreated, .complexFileEvent, .addonFileMoved,
   .addonFileCopied]

/-- ASCII lowercasing of one character, as Python's `str.lower` acts on the
class names in play. -/
def lowerChar : Char → Char
  | 'A' => 'a' | 'B' => 'b' | 'C' => 'c' | 'D' => 'd' | 'E' => 'e'
  | 'F' => 'f' | 'G' => 'g' | 'H' => 'h' | 'I' => 'i' | 'J' => 'j'
  | 'K' => 'k' | 'L' => 'l' | 'M' => 'm' | 'N' => 'n' | 'O' => 'o'
  | 'P' => 'p' | 'Q' => 'q' | 'R' => 'r' | 'S' => 's' | 'T' => 't'
  | 'U' => 'u' | 'V' => 'v' | 'W' => 'w' | 'X' => 'x' | 'Y' => 'y'
  | 'Z' => 'z'
  | c => c

/-- Python's `name.lower()` (model.py line 19). -/
def lowerName (s : String) : String := ⟨s.data.map lowerChar⟩

/-- `EventMeta.__init__` (model.py lines 14-22): `registry[name.lower()] =
cls` for every subclass, in definition order. -/
def eventRegistry : List (String × EventClass) :=
  eventSubclasses.map (fun c => (lowerName c.className, c))

/-- `''.join(event.split('_'))` (model.py line 42): the event name with its
underscores removed. -/
def removeUnderscores (s : String) : String :=
  ⟨s.data.filter (fun c => c ≠ '_')⟩

/-- `Event.get_event` (model.py lines 39-45): return the registered subclass
matching the underscore-stripped event name, else raise `TypeError`
(modelled as `.error ()`); instantiation of the class is outside the slice. -/
def get_event (event : String) : Except Unit EventClass :=
  match eventRegistry.lookup (removeUnderscores event) with
  | some c => .ok c
  | none => .error ()

/-- A concrete public node with no permissions granted, used to instantiate
the access-control theorem on closed inputs. -/
def sampleAccessNode : AccessNode :=
  .mk (fun _ _ => false) true [] false none

/-! Helper lemmas shared by the claim theorems. -/

/-- The upload body's "sha" field is exactly the optional captured hash. -/
theorem uploadBody_lookup_sha (p : Provider) (content : List Nat)
    (path message : String) (sha : Option String) :
    (uploadBody p content path message sha).lookupField "sha" = sha.map Json.str := by
  cases sha <;> rfl

/-- Serializing a listing relates it entrywise, in order, to its records. -/
theorem forall2_serialize (l : List ContentsEntry) :
    List.Forall₂ (fun e r => r = serialize_metadata e) l (l.map serialize_metadata) := by
  induction l with
  | nil => exact .nil
  | cons h t ih => exact .cons rfl ih

/-- Dropping leading slashes leaves a string whose head is not a slash. -/
theorem head_dropWhile_slash (cs : List Char) :
    ((cs.dropWhile (fun c => c = '/')).head? == some '/') = false := by
  induction cs with
  | nil => rfl
  | cons c t ih =>
    by_cases hc : c = '/'
    · simpa [List.dropWhile_cons, hc] using ih
    · simp [List.dropWhile_cons, hc]

/-- Looking a key up in a registry built by mapping elements to
(key, element) pairs finds exactly the element with that key, when the keys
are distinct. -/
theorem lookup_by_key {A : Type} (f : A → String) (l : List A) (s : String) (c : A)
    (hnd : (l.map f).Nodup) :
    (l.map (fun x => (f x, x))).lookup s = some c ↔ c ∈ l ∧ f c = s := by
  induction l with
  | nil => simp [List.lookup]
  | cons a t ih =>
    simp only [List.map_cons, List.nodup_cons] at hnd
    by_cases hs : s = f a
    · simp [List.lookup, hs]
      constructor
      · rintro rfl; exact ⟨Or.inl rfl, rfl⟩
      · rintro ⟨hc, hfc⟩
        cases hc with
        | inl h => exact h.symm
        | inr h => exact absurd (hfc ▸ List.mem_map_of_mem f h) hnd.1
    · have hbeq : (s == f a) = false := by simp [hs]
      simp only [List.map_cons, List.lookup, hbeq]
      rw [ih hnd.2]
      constructor
      · rintro ⟨hc, hfc⟩; exact ⟨List.mem_cons_of_mem a hc, hfc⟩
      · rintro ⟨hc, hfc⟩
        cases List.mem_cons.mp hc with
        | inl h => exact absurd (h ▸ hfc).symm hs
        | inr h => exact ⟨h, hfc⟩

/-- A key absent from such a registry is one no element maps to. -/
theorem lookup_by_key_none {A : Type} (f : A → String) (l : List A) (s : String) :
    (l.map (fun x => (f x, x))).lookup s = none ↔ ∀ c ∈ l, f c ≠ s := by
  induction l with
  | nil => simp [List.lookup]
  | cons a t ih =>
    by_cases hs : s = f a
    · simp [List.lookup, hs]
    · have hbeq : (s == f a) = false := by simp [hs]
      simp only [List.map_cons, List.lookup, hbeq]
      rw [ih]
      constructor
      · intro h c hc
        cases List.mem_cons.mp hc with
        | inl hh => exact hh ▸ fun hfa => hs hfa.symm
        | inr hh => exact h c hh
      · intro h c hc
        exact h c (List.mem_cons_of_mem a hc)

/-- C1: the upload write body contains a "sha" field iff the pre-flight
metadata probe of the containing folder returned an entry whose path equals
the exact target path, and when that entry (the unique one at its path) has
hash H the field's value is exactly H; the body in question is the one
upload attaches to its single write call. -/
theorem upload_sha_field_iff_probe_hit (p : Provider) (probe : ProbeResult)
    (content : List Nat) (path message : String) :
    (((uploadWriteBody p probe content path message).lookupField "sha").isSome = true ↔
      ∃ e, e ∈ probeEntries probe ∧ e.path = path) ∧
    (∀ e, e ∈ probeEntries probe → e.path = path →
      (∀ e', e' ∈ probeEntries probe → e'.path = path → e' = e) →
      (uploadWriteBody p probe content path message).lookupField "sha" =
        some (.str e.sha)) ∧
    upload p probe content path message =
      [ .get (build_repo_url p.identity ["contents", dirname path]),
        .put (build_repo_url p.identity ["contents", path])
             (uploadWriteBody p probe content path message) ] := by
  refine ⟨?_, ?_, rfl⟩
  · rw [uploadWriteBody, uploadBody_lookup_sha, findExistingSha]
    simp [List.find?_isSome]
  · intro e he hpath huniq
    rw [uploadWriteBody, uploadBody_lookup_sha, findExistingSha]
    have hsome : ((probeEntries probe).find? (fun x => x.path == path)).isSome :=
      List.find?_isSome.mpr ⟨e, he, by simp [hpath]⟩
    obtain ⟨e', he'⟩ := Option.isSome_iff_exists.mp hsome
    have h2 := List.mem_of_find?_eq_some he'
    have h1 := List.find?_some he'
    have he'e : e' = e := huniq e' h2 (by simpa using h1)
    rw [he', he'e]
    rfl

/-- C2: a download whose backend response has a non-success status raises
the classified gateway error preserving that status — a BackendError
whenever the status has no special classification, as for 418 — and never
returns a ByteStream. -/
theorem download_nonsuccess_raises (status : Nat) (body : List Nat)
    (h : successStatus status = false) :
    download status body = .error (classify status) ∧
    (classify status).status = status ∧
    (∀ bs : ByteStream, download status body ≠ .ok bs) ∧
    (status ≠ 404 → status ≠ 409 → status ≠ 401 → status ≠ 403 →
      download status body = .error (.backendError status)) := by
  have hdl : download status body = .error (classify status) := by
    simp [download, h]
  refine ⟨hdl, ?_, ?_, ?_⟩
  · unfold classify; split_ifs <;> rfl
  · intro bs hok; rw [hdl] at hok; exact Except.noConfusion hok
  · intro h1 h2 h3 h4
    rw [hdl]
    simp [classify, h1, h2, h3, h4]

/-- C2 witness: the theorem executed at the test's status, 418. -/
theorem download_nonsuccess_raises_witness :
    download 418 [104] = .error (classify 418) ∧
    (classify 418).status = 418 ∧
    (∀ bs : ByteStream, download 418 [104] ≠ .ok bs) ∧
    (418 ≠ 404 → 418 ≠ 409 → 418 ≠ 401 → 418 ≠ 403 →
      download 418 [104] = .error (.backendError 418)) :=
  download_nonsuccess_raises 418 [104] (by decide)

/-- C3: upload issues the read-only probe GET on the containing folder first
and then exactly one write call on the target path, whose body's content
field is the base64 encoding of the whole stream content with path, message
and committer attached; a not-found probe still yields the write (as a
create, with no hash), and base64 of b"hungry" is "aHVuZ3J5". -/
theorem upload_probe_then_single_write (p : Provider) (probe : ProbeResult)
    (content : List Nat) (path message : String) :
    upload p probe content path message =
      [ .get (build_repo_url p.identity ["contents", dirname path]),
        .put (build_repo_url p.identity ["contents", path])
             (uploadBody p content path message
               (findExistingSha (probeEntries probe) path)) ] ∧
    (uploadWriteBody p probe content path message).lookupField "content" =
      some (.str (base64Encode content)) ∧
    (uploadWriteBody p probe content path message).lookupField "path" =
      some (.str path) ∧
    (uploadWriteBody p probe content path message).lookupField "message" =
      some (.str message) ∧
    (uploadWriteBody p probe content path message).lookupField "committer" =
      some (committerJson p.committer) ∧
    (uploadWriteBody p ProbeResult.notFound content path message).lookupField "sha" =
      none ∧
    base64Encode [104, 117, 110, 103, 114, 121] = "aHVuZ3J5" :=
  ⟨rfl, rfl, rfl, rfl, rfl, rfl, by decide⟩

/-- C4: delete issues one DELETE whose body carries the message, the
required content hash and the committer; an explicit branch appears in the
body exactly as supplied, and an omitted branch leaves the field out
entirely — no default is injected. -/
theorem delete_branch_field (p : Provider) (path message sha : String)
    (branch : Option String) :
    delete p path message sha branch =
      [ .del (build_repo_url p.identity ["contents", path])
             (deleteBody p message sha branch) ] ∧
    (∀ b, branch = some b →
      (deleteBody p message sha branch).lookupField "branch" = some (.str b)) ∧
    (branch = none →
      (deleteBody p message sha branch).lookupField "branch" = none) ∧
    (deleteBody p message sha branch).lookupField "message" = some (.str message) ∧
    (deleteBody p message sha branch).lookupField "sha" = some (.str sha) ∧
    (deleteBody p message sha branch).lookupField "committer" =
      some (committerJson p.committer) := by
  refine ⟨rfl, ?_, ?_, rfl, rfl, rfl⟩
  · rintro b rfl; rfl
  · rintro rfl; rfl

/-- C5: metadata on a folder listing returns exactly the records obtained by
serializing each backend entry in listing order, and serialization maps the
fragment {type:"file", size:625, name:"x", path:"a/x", sha:"abc"} to the
record {kind:file, size:625, name:"x", path:"a/x", hash:"abc"}. -/
theorem metadata_serializes_listing (status : Nat) (listing : List ContentsEntry) :
    (successStatus status = true →
      metadata status listing = .ok (listing.map serialize_metadata)) ∧
    (∀ records, metadata status listing = .ok records →
      List.Forall₂ (fun e r => r = serialize_metadata e) listing records) ∧
    serialize_metadata ⟨"file", 625, "x", "a/x", "abc"⟩ =
      ⟨Kind.file, "x", "a/x", 625, "abc"⟩ := by
  refine ⟨?_, ?_, rfl⟩
  · intro h; simp [metadata, h]
  · intro records h
    unfold metadata at h
    split at h
    · cases h
      exact forall2_serialize listing
    · exact Except.noConfusion h

/-- C6 counterexample: `FileEvent.form_guid` re-adds a leading slash to the
already-canonical (slash-free) path "lib/octokit.rb" before its guid lookup,
refuting "no component re-adds a leading slash". -/
theorem form_guid_readds_leading_slash :
    hasLeadingSlash "lib/octokit.rb" = false ∧
    form_guid_path "lib/octokit.rb" = "/lib/octokit.rb" ∧
    hasLeadingSlash (form_guid_path "lib/octokit.rb") = true :=
  ⟨rfl, rfl, rfl⟩

/-- C6 amended: the waterbutler-log boundary strips leading slashes
(producing the canonical slash-free form), but the notification component's
`FileEvent.form_guid` re-adds a leading slash to every path before its guid
lookup, prefixing exactly one slash to a canonical path. -/
theorem lstrip_canonical_but_form_guid_readds (s : String) :
    hasLeadingSlash (lstripSlash s) = false ∧
    hasLeadingSlash (form_guid_path s) = true ∧
    (hasLeadingSlash s = false → form_guid_path s = "/" ++ s) := by
  refine ⟨head_dropWhile_slash s.data, ?_, ?_⟩
  · cases hcase : hasLeadingSlash s with
    | true => simp [form_guid_path, hcase]
    | false =>
      simp only [form_guid_path, hcase, Bool.false_eq_true, if_false]
      rfl
  · intro h
    simp [form_guid_path, h]

/-- C7: committer is a pure function of the constructor-time auth data —
equal to {name: auth.name, email: auth.email} — and it is attached verbatim
to the body of every mutating request, upload and delete alike. -/
theorem committer_pure_and_attached (a : Auth) (i : Identity)
    (probe : ProbeResult) (content : List Nat)
    (path message dmsg dsha : String) (branch : Option String) :
    (Provider.mk a i).committer = ⟨a.name, a.email⟩ ∧
    (uploadWriteBody (Provider.mk a i) probe content path message).lookupField
        "committer" = some (committerJson (Provider.mk a i).committer) ∧
    (deleteBody (Provider.mk a i) dmsg dsha branch).lookupField "committer" =
      some (committerJson (Provider.mk a i).committer) :=
  ⟨rfl, rfl, rfl⟩

/-- C8: for an action mapped to 'read', check_access grants access whenever
the node is public or the supplied key is an active private-link key, for
every user including none; a denial for a mapped action carries 403 with a
user present and 401 without; an unmapped action always raises 400;
instantiated on a concrete public node granting no permissions. -/
theorem check_access_read_and_errors (node : AccessNode) (user : Option String)
    (action : String) (key : Option String) :
    (permission_map.lookup action = some "read" →
      (node.isPublic || keyInActive node key) = true →
      check_access node user action key = .ok true) ∧
    (∀ e, (permission_map.lookup action).isSome = true →
      check_access node user action key = .error e →
      e = if user.isSome then 403 else 401) ∧
    (permission_map.lookup action = none →
      check_access node user action key = .error 400) ∧
    check_access sampleAccessNode none "download" (some "k") = .ok true ∧
    check_access sampleAccessNode none "upload" none = .error 401 ∧
    check_access sampleAccessNode (some "u") "upload" none = .error 403 ∧
    check_access sampleAccessNode none "bogus" none = .error 400 := by
  refine ⟨?_, ?_, ?_, rfl, rfl, rfl, rfl⟩
  · intro hperm hpub
    cases hhp : node.hasPermission user "read" with
    | true => simp [check_access, hperm, hhp]
    | false => simp [check_access, hperm, hhp, hpub]
  · intro e hsome herr
    unfold check_access at herr
    split at herr
    · rename_i heq
      rw [heq] at hsome
      simp at hsome
    · split_ifs at herr <;>
        first
          | exact Except.noConfusion herr
          | (injection herr with h; simp_all)
  · intro h
    simp [check_access, h]

/-- C9: whenever the move/copy email branch of create_waterbutler_log fires
(email flag true or errors present), the mail's destination_path argument
equals the payload's source path — identical to its source_path argument —
and the destination bundle's own path is never consulted. -/
theorem waterbutler_email_destination_is_source (payload : MoveCopyPayload) :
    (payload.email = true ∨ payload.errors ≠ [] →
      waterbutler_email payload =
        some { template := if payload.errors.isEmpty then "FILE_OPERATION_SUCCESS"
                           else "FILE_OPERATION_FAILED",
               action := payload.action,
               source_path := payload.source.path,
               destination_path := payload.source.path }) ∧
    (∀ c, waterbutler_email payload = some c →
      c.destination_path = payload.source.path ∧
      c.destination_path = c.source_path) ∧
    (∀ q, waterbutler_email
        { payload with destination := { payload.destination with path := q } } =
      waterbutler_email payload) := by
  refine ⟨?_, ?_, fun q => rfl⟩
  · intro h
    have hcond : (payload.email || !payload.errors.isEmpty) = true := by
      cases h with
      | inl h => simp [h]
      | inr h =>
        have : payload.errors.isEmpty = false := by
          cases he : payload.errors with
          | nil => exact absurd he h
          | cons a t => rfl
        simp [this]
    simp [waterbutler_email, hcond]
  · intro c hc
    unfold waterbutler_email at hc
    split at hc
    · cases hc
      exact ⟨rfl, rfl⟩
    · exact Option.noConfusion hc

/-- C10: Event.get_event returns the registered subclass whose lowercased
class name equals the event name with its underscores removed, and raises
TypeError exactly when no registered subclass matches; e.g. "file_added"
yields FileAdded and "tag_added" raises. -/
theorem get_event_registry_lookup (event : String) :
    (∀ c, get_event event = .ok c ↔
      c ∈ eventSubclasses ∧ lowerName c.className = removeUnderscores event) ∧
    (get_event event = .error () ↔
      ∀ c ∈ eventSubclasses, lowerName c.className ≠ removeUnderscores event) ∧
    get_event "file_added" = .ok .fileAdded ∧
    get_event "tag_added" = .error () := by
  have hnd : (eventSubclasses.map (fun c => lowerName c.className)).Nodup := by decide
  have hkey : ∀ c, eventRegistry.lookup (removeUnderscores event) = some c ↔
      c ∈ eventSubclasses ∧ lowerName c.className = removeUnderscores event := by
    intro c
    unfold eventRegistry
    exact lookup_by_key (fun x => lowerName x.className) eventSubclasses
      (removeUnderscores event) c hnd
  have hnone : eventRegistry.lookup (removeUnderscores event) = none ↔
      ∀ c ∈ eventSubclasses, lowerName c.className ≠ removeUnderscores event := by
    unfold eventRegistry
    exact lookup_by_key_none (fun x => lowerName x.className) eventSubclasses
      (removeUnderscores event)
  have hok : ∀ c, get_event event = Except.ok c ↔
      eventRegistry.lookup (removeUnderscores event) = some c := by
    intro c
    unfold get_event
    cases hl : eventRegistry.lookup (removeUnderscores event) with
    | none => simp
    | some d => simp
  have herr : get_event event = Except.error () ↔
      eventRegistry.lookup (removeUnderscores event) = none := by
    unfold get_event
    cases hl : eventRegistry.lookup (removeUnderscores event) with
    | none => simp
    | some d => simp
  exact ⟨fun c => (hok c).trans (hkey c), herr.trans hnone, rfl, rfl⟩

end OsfGateway
